import Mathlib

/-!
Shallow embedding of the BreedAI front-end prototype (cattle/buffalo breed
recognition demo).  Each definition translates one constant or function of
the TypeScript source; React component state is made explicit as record
types and state-transition functions, `setTimeout` driven sequences are
made explicit as event traces, and `Math.random()` draws are passed in as
rational parameters.  JavaScript numbers are modelled as `ℚ` (the values
the code compares are small decimal literals) and counters as `Nat`.
-/

namespace BreedAI

/-! ### JavaScript string primitives

`strIncludes s pat` models `s.includes(pat)` (substring containment, true
for the empty pattern); `jsToLower` models `String.prototype.toLowerCase`
(per-character lowercasing — the identity on Devanagari); `jsTrim` models
`String.prototype.trim` (whitespace stripped from both ends). -/

/-- Does the pattern (second argument) occur at the head of the first list? -/
def charsLead : List Char → List Char → Bool
  | _, [] => true
  | [], _ :: _ => false
  | a :: as, b :: bs => a == b && charsLead as bs

/-- Does the pattern (second argument) occur anywhere inside the first list? -/
def charsHasSub : List Char → List Char → Bool
  | [], pat => pat.isEmpty
  | a :: as, pat => charsLead (a :: as) pat || charsHasSub as pat

/-- Model of JavaScript `s.includes(pat)`. -/
def strIncludes (s pat : String) : Bool :=
  charsHasSub s.data pat.data

/-- Model of JavaScript `s.toLowerCase()`. -/
def jsToLower (s : String) : String :=
  String.mk (s.data.map Char.toLower)

/-- Whitespace characters stripped by `trim`. -/
def jsIsWhitespace (c : Char) : Bool :=
  c == ' ' || c == '\t' || c == '\n' || c == '\r'

/-- Model of JavaScript `s.trim()`. -/
def jsTrim (s : String) : String :=
  String.mk (((s.data.dropWhile jsIsWhitespace).reverse.dropWhile jsIsWhitespace).reverse)

/-! ### LoadingAnalysis.tsx

The component kicks off `runAnalysis` once: for each entry of
`analysisSteps` it sets the current step and awaits the step's duration,
then sets progress to 100 and schedules `onComplete` after 500 ms.  The
run is modelled as the trace of these effects. -/

/-- One entry of the `analysisSteps` constant (the icon, a React component,
is kept as its imported name). -/
structure AnalysisStep where
  id : Nat
  title : String
  description : String
  hindiDescription : String
  icon : String
  duration : Nat
deriving DecidableEq

/-- The `analysisSteps` constant of LoadingAnalysis.tsx. -/
def analysisSteps : List AnalysisStep :=
  [ { id := 1, title := "Processing Image",
      description := "Analyzing image quality and features",
      hindiDescription := "छवि की गुणवत्ता का विश्लेषण",
      icon := "Camera", duration := 2000 },
    { id := 2, title := "AI Model Analysis",
      description := "Running breed classification model",
      hindiDescription := "नस्ल वर्गीकरण मॉडल चलाया जा रहा है",
      icon := "Brain", duration := 3000 },
    { id := 3, title := "Matching Database",
      description := "Comparing with breed database",
      hindiDescription := "नस्ल डेटाबेस से तुलना",
      icon := "Database", duration := 2000 } ]

/-- Observable effects of `runAnalysis` inside LoadingAnalysis. -/
inductive AnalysisEvent
  | setCurrentStep (i : Nat)
  | wait (ms : Nat)
  | setProgress (p : Nat)
  | complete
deriving DecidableEq

/-- The trace `runAnalysis` produces for a given input image: per step,
set the step index then await the step's duration; afterwards set progress
to 100 and fire `onComplete` after a 500 ms timeout.  The image is rendered
but never inspected, so the trace does not depend on it. -/
def runAnalysisTrace (_image : String) : List AnalysisEvent :=
  (analysisSteps.enum.flatMap fun p =>
    [AnalysisEvent.setCurrentStep p.1, AnalysisEvent.wait p.2.duration])
  ++ [AnalysisEvent.setProgress 100, AnalysisEvent.wait 500, AnalysisEvent.complete]

/-- The waits of a trace, in order. -/
def traceWaits (t : List AnalysisEvent) : List Nat :=
  t.filterMap fun e =>
    match e with
    | AnalysisEvent.wait ms => some ms
    | _ => none

/-- How many times a trace invokes `onComplete`. -/
def completeCount (t : List AnalysisEvent) : Nat :=
  t.countP fun e =>
    match e with
    | AnalysisEvent.complete => true
    | _ => false

/-! ### The top-level screen-state controller (BreedAI / Index page)

`AppState` is the literal union type of the page; `BreedAIState` its React
state, and `UiEvent` enumerates every callback that calls
`setCurrentState`. -/

/-- The `AppState` union type: the eleven named modes. -/
inductive AppState
  | home | capture | multiAngle | batch | analytics | location | voice
  | analyzing | results | database | confirmed
deriving DecidableEq

/-- The eleven modes, as listed in the `AppState` type. -/
def allModes : List AppState :=
  [AppState.home, AppState.capture, AppState.multiAngle, AppState.batch,
   AppState.analytics, AppState.location, AppState.voice, AppState.analyzing,
   AppState.results, AppState.database, AppState.confirmed]

/-- The `BreedPrediction` interface. -/
structure BreedPrediction where
  name : String
  hindiName : String
  confidence : Nat
  characteristics : List String
  region : String
deriving DecidableEq

/-- The `mockPredictions` constant: the hardcoded three-entry prediction list. -/
def mockPredictions : List BreedPrediction :=
  [ { name := "Gir", hindiName := "गीर", confidence := 87,
      characteristics := ["Drought resistant", "High milk yield",
        "Distinctive forehead", "White patches"],
      region := "Gujarat, Rajasthan" },
    { name := "Sahiwal", hindiName := "साहीवाल", confidence := 72,
      characteristics := ["Heat tolerant", "Good milk producer", "Docile nature"],
      region := "Punjab, Haryana" },
    { name := "Red Sindhi", hindiName := "लाल सिंधी", confidence := 64,
      characteristics := ["Heat resistant", "Good grazer", "Hardy breed"],
      region := "Maharashtra, Karnataka" } ]

/-- React state of the BreedAI component. -/
structure BreedAIState where
  currentState : AppState
  capturedImage : Option String
  confirmedBreed : Option BreedPrediction
deriving DecidableEq

/-- Initial state of the component (`useState` initialisers). -/
def initialBreedAIState : BreedAIState :=
  { currentState := AppState.home, capturedImage := none, confirmedBreed := none }

/-- Every callback of the BreedAI component that performs a state change
(each one calls `setCurrentState`, some also set the other fields). -/
inductive UiEvent
  | imageCapture (imageUrl : String)
  | analysisComplete
  | breedConfirm (breed : BreedPrediction)
  | breedCorrect
  | startOver
  | goCapture | goMultiAngle | goBatch | goAnalytics
  | goLocation | goVoice | goDatabase
  | multiAngleComplete (firstImageUrl : Option String)
  | multiAngleBack | batchBack | resultsBack
  | confirmedViewDatabase | headerBackHome

/-- One BreedAI callback applied to the component state. -/
def step (s : BreedAIState) : UiEvent → BreedAIState
  | UiEvent.imageCapture url =>
      { s with capturedImage := some url, currentState := AppState.analyzing }
  | UiEvent.analysisComplete => { s with currentState := AppState.results }
  | UiEvent.breedConfirm breed =>
      { s with confirmedBreed := some breed, currentState := AppState.confirmed }
  | UiEvent.breedCorrect => { s with currentState := AppState.capture }
  | UiEvent.startOver =>
      { s with capturedImage := none, confirmedBreed := none,
               currentState := AppState.home }
  | UiEvent.goCapture => { s with currentState := AppState.capture }
  | UiEvent.goMultiAngle => { s with currentState := AppState.multiAngle }
  | UiEvent.goBatch => { s with currentState := AppState.batch }
  | UiEvent.goAnalytics => { s with currentState := AppState.analytics }
  | UiEvent.goLocation => { s with currentState := AppState.location }
  | UiEvent.goVoice => { s with currentState := AppState.voice }
  | UiEvent.goDatabase => { s with currentState := AppState.database }
  | UiEvent.multiAngleComplete firstUrl =>
      { s with capturedImage := firstUrl, currentState := AppState.analyzing }
  | UiEvent.multiAngleBack => { s with currentState := AppState.home }
  | UiEvent.batchBack => { s with currentState := AppState.home }
  | UiEvent.resultsBack => { s with currentState := AppState.capture }
  | UiEvent.confirmedViewDatabase => { s with currentState := AppState.database }
  | UiEvent.headerBackHome => { s with currentState := AppState.home }

/-- The predictions the page passes to the results screen: in mode
`results` with a captured image it always renders `BreedResults` with the
`mockPredictions` constant. -/
def resultsPredictions (s : BreedAIState) : Option (List BreedPrediction) :=
  if s.currentState = AppState.results ∧ s.capturedImage.isSome then
    some mockPredictions
  else none

/-! ### VoiceCommands.tsx

`processCommand` lowercases and trims the transcript, looks for the first
entry of `voiceCommands` whose lowercased English keyword or Hindi keyword
occurs in it, and — when one is found and the recognition confidence is
above 0.7 — invokes `onCommand` with that entry's action.  The model
returns the action passed to `onCommand`, or `none` when no command is
dispatched. -/

/-- The `Command` interface. -/
structure Command where
  id : String
  english : String
  hindi : String
  action : String
  description : String
deriving DecidableEq

/-- The `voiceCommands` constant: the fixed seven-command list. -/
def voiceCommands : List Command :=
  [ { id := "take_photo", english := "take photo", hindi := "फोटो लें",
      action := "takePhoto", description := "Capture a new image" },
    { id := "confirm_breed", english := "confirm breed", hindi := "नस्ल की पुष्टि",
      action := "confirmBreed", description := "Confirm the identified breed" },
    { id := "retake_photo", english := "retake photo", hindi := "दोबारा फोटो लें",
      action := "retakePhoto", description := "Capture image again" },
    { id := "need_correction", english := "need correction", hindi := "सुधार चाहिए",
      action := "needCorrection", description := "Report incorrect identification" },
    { id := "start_camera", english := "start camera", hindi := "कैमरा शुरू करें",
      action := "startCamera", description := "Activate camera" },
    { id := "go_back", english := "go back", hindi := "वापस जाएं",
      action := "goBack", description := "Navigate to previous screen" },
    { id := "help", english := "help", hindi := "मदद",
      action := "showHelp", description := "Show available commands" } ]

/-- The matching predicate of `processCommand`: the normalized transcript
contains the command's lowercased English keyword or its Hindi keyword. -/
def cmdMatches (normalizedTranscript : String) (cmd : Command) : Bool :=
  strIncludes normalizedTranscript (jsToLower cmd.english)
    || strIncludes normalizedTranscript cmd.hindi

/-- The `processCommand` callback: the action dispatched to `onCommand`
(`none` when no command fires). -/
def processCommand (transcript : String) (confidence : ℚ) : Option String :=
  let normalizedTranscript := jsTrim (jsToLower transcript)
  let matchedCommand := voiceCommands.find? (cmdMatches normalizedTranscript)
  match matchedCommand with
  | some cmd => if confidence > 7/10 then some cmd.action else none
  | none => none

/-! ### BreedDatabase.tsx -/

/-- The breed `type` union, `"cattle" | "buffalo"`. -/
inductive BreedType
  | cattle | buffalo
deriving DecidableEq

/-- The type filter union, `"all" | "cattle" | "buffalo"`. -/
inductive TypeFilter
  | all | cattle | buffalo
deriving DecidableEq

/-- The `selectedType === breed.type` comparison across the two unions. -/
def filterEqType : TypeFilter → BreedType → Bool
  | TypeFilter.cattle, BreedType.cattle => true
  | TypeFilter.buffalo, BreedType.buffalo => true
  | _, _ => false

/-- The `Breed` interface. -/
structure Breed where
  id : String
  name : String
  hindiName : String
  typ : BreedType
  region : String
  characteristics : List String
  avgWeight : String
  milkYield : String
  color : String
deriving DecidableEq

/-- The `breedDatabase` constant: the six-entry literal list. -/
def breedDatabase : List Breed :=
  [ { id := "1", name := "Gir", hindiName := "गीर", typ := BreedType.cattle,
      region := "Gujarat, Rajasthan",
      characteristics := ["Drought resistant", "High milk yield", "Distinctive forehead"],
      avgWeight := "350-400 kg", milkYield := "10-15 L/day",
      color := "Light to dark red with white patches" },
    { id := "2", name := "Sahiwal", hindiName := "साहीवाल", typ := BreedType.cattle,
      region := "Punjab, Haryana",
      characteristics := ["Heat tolerant", "Good milk producer", "Docile nature"],
      avgWeight := "300-400 kg", milkYield := "8-12 L/day",
      color := "Light to medium brown" },
    { id := "3", name := "Red Sindhi", hindiName := "लाल सिंधी", typ := BreedType.cattle,
      region := "Maharashtra, Karnataka",
      characteristics := ["Heat resistant", "Good grazer", "Hardy breed"],
      avgWeight := "300-350 kg", milkYield := "6-10 L/day",
      color := "Dark red to light red" },
    { id := "4", name := "Murrah", hindiName := "मुर्रा", typ := BreedType.buffalo,
      region := "Haryana, Punjab, UP",
      characteristics := ["High milk yield", "Strong build", "Curved horns"],
      avgWeight := "500-600 kg", milkYield := "12-18 L/day",
      color := "Jet black" },
    { id := "5", name := "Nili Ravi", hindiName := "नीली रावी", typ := BreedType.buffalo,
      region := "Punjab, Haryana",
      characteristics := ["High milk yield", "Wall eyes", "White markings"],
      avgWeight := "450-550 kg", milkYield := "15-20 L/day",
      color := "Black with white markings" },
    { id := "6", name := "Jaffarabadi", hindiName := "जाफराबादी", typ := BreedType.buffalo,
      region := "Gujarat",
      characteristics := ["Large size", "Curved horns", "Good draft animal"],
      avgWeight := "600-800 kg", milkYield := "8-12 L/day",
      color := "Black" } ]

/-- The per-breed search predicate of `filteredBreeds`. -/
def breedMatchesSearch (searchTerm : String) (breed : Breed) : Bool :=
  strIncludes (jsToLower breed.name) (jsToLower searchTerm)
    || strIncludes breed.hindiName searchTerm
    || strIncludes (jsToLower breed.region) (jsToLower searchTerm)

/-- The `filteredBreeds` value of the BreedDatabase component, as a function
of the two `useState` values it reads. -/
def filteredBreeds (searchTerm : String) (selectedType : TypeFilter) : List Breed :=
  breedDatabase.filter fun breed =>
    breedMatchesSearch searchTerm breed
      && (selectedType == TypeFilter.all || filterEqType selectedType breed.typ)

/-! ### BreedResults.tsx -/

/-- The three confidence levels `getConfidenceLevel` distinguishes. -/
inductive ConfLevel
  | high | medium | low
deriving DecidableEq

/-- The record `getConfidenceLevel` returns. -/
structure ConfInfo where
  level : ConfLevel
  label : String
  className : String
deriving DecidableEq

/-- The `getConfidenceLevel` helper of BreedResults.tsx. -/
def getConfidenceLevel (confidence : ℚ) : ConfInfo :=
  if confidence ≥ 80 then
    { level := ConfLevel.high, label := "High Confidence", className := "confidence-high" }
  else if confidence ≥ 60 then
    { level := ConfLevel.medium, label := "Medium Confidence", className := "confidence-medium" }
  else
    { level := ConfLevel.low, label := "Low Confidence", className := "confidence-low" }

/-! ### MultiAngleCapture.tsx -/

/-- The `CapturedImage` interface (the `File` payload is kept as the file
name; the timestamp as milliseconds). -/
structure CapturedImage where
  id : String
  url : String
  fileName : String
  angle : String
  timestamp : Nat
deriving DecidableEq

/-- The `handleComplete` callback: invokes `onComplete` with the current
captured-images list only when at least 2 images have been captured.  The
model returns the list passed to `onComplete`, or `none` for the no-op. -/
def handleComplete (capturedImages : List CapturedImage) : Option (List CapturedImage) :=
  if capturedImages.length ≥ 2 then some capturedImages else none

/-- The `disabled` condition of the "Complete Multi-Angle Analysis" button. -/
def completeDisabled (capturedImages : List CapturedImage) : Bool :=
  capturedImages.length < 2

/-! ### BatchProcessing.tsx

React state of the component is a queue of `BatchItem`s plus the
`isProcessing` flag and the current processing index.  `processNextItem`
is one timer callback; the component body re-arms it with
`setTimeout(processNextItem, 100)` while `isProcessing` holds and the
index is below the queue length, which `runBatch` models as a driver
loop.  The two `Math.random()` draws of an item are passed in as a
`Draws` record. -/

/-- Toast notification (the `variant: "destructive"` flag made explicit). -/
structure ToastMsg where
  title : String
  description : String
  destructive : Bool
deriving DecidableEq

/-- The `status` union of a `BatchItem`. -/
inductive BatchStatus
  | pending | processing | completed | error
deriving DecidableEq

/-- The `result` payload of a completed `BatchItem` (`timestamp: new Date()`
modelled as milliseconds). -/
structure BatchResult where
  breed : String
  confidence : Nat
  timestamp : Nat
deriving DecidableEq

/-- The `BatchItem` interface. -/
structure BatchItem where
  id : String
  fileName : String
  imageUrl : String
  status : BatchStatus
  progress : Nat
  result : Option BatchResult
  error : Option String
deriving DecidableEq

/-- One entry of the `mockBreedResults` constant. -/
structure BreedConf where
  breed : String
  confidence : Nat
deriving DecidableEq

/-- The `mockBreedResults` constant: the five fixed breed/confidence pairs. -/
def mockBreedResults : List BreedConf :=
  [ { breed := "Gir", confidence := 87 },
    { breed := "Sahiwal", confidence := 82 },
    { breed := "Murrah", confidence := 91 },
    { breed := "Red Sindhi", confidence := 76 },
    { breed := "Nili Ravi", confidence := 89 } ]

/-- React state of the BatchProcessing component (the parts the processing
loop touches). -/
structure BatchState where
  batchItems : List BatchItem
  isProcessing : Bool
  currentProcessingIndex : Nat
deriving DecidableEq

/-- The two `Math.random()` draws one `processNextItem` call makes. -/
structure Draws where
  pick : ℚ
  succ : ℚ
deriving DecidableEq

/-- Observable effects of the batch processing loop. -/
inductive BatchEvent
  | wait (ms : Nat)
  | setStatus (i : Nat) (s : BatchStatus)
  | setProgress (i : Nat) (p : Nat)
  | setOutcome (i : Nat) (success : Bool)
  | toast (title : String)
deriving DecidableEq

/-- The `prev.map((item, index) => index === i ? f(item) : item)` update
pattern used by every `setBatchItems` call of the loop. -/
def updateItem (l : List BatchItem) (i : Nat) (f : BatchItem → BatchItem) : List BatchItem :=
  l.mapIdx fun j item => if j = i then f item else item

/-- Index drawn by `Math.floor(Math.random() * mockBreedResults.length)`. -/
def pickIndex (pick : ℚ) : Nat :=
  (⌊pick * (mockBreedResults.length : ℚ)⌋).toNat

/-- One `processNextItem` call: at or past the end of the queue it stops
processing and toasts; otherwise it marks the current item `processing`,
runs the 11-step progress loop (a 150 ms delay before each update of
`progress` to 0, 10, …, 100), then settles the item from the two random
draws (success iff the success draw exceeds 0.1) and advances the index.
Returns the new state and the trace of effects. -/
def processNextItem (st : BatchState) (d : Draws) (now : Nat) :
    BatchState × List BatchEvent :=
  if st.currentProcessingIndex ≥ st.batchItems.length then
    ({ st with isProcessing := false }, [BatchEvent.toast "Batch Processing Complete"])
  else
    let i := st.currentProcessingIndex
    let items1 := updateItem st.batchItems i fun it => { it with status := BatchStatus.processing }
    let progressEvents := (List.range 11).flatMap fun k =>
      [BatchEvent.wait 150, BatchEvent.setProgress i (10 * k)]
    let items2 := (List.range 11).foldl
      (fun acc k => updateItem acc i fun it => { it with progress := 10 * k }) items1
    let randomResult := mockBreedResults.getD (pickIndex d.pick) { breed := "", confidence := 0 }
    let success := d.succ > 1/10
    let items3 := updateItem items2 i fun it =>
      { it with
        status := if success then BatchStatus.completed else BatchStatus.error,
        result := if success then
            some { breed := randomResult.breed, confidence := randomResult.confidence,
                   timestamp := now }
          else none,
        error := if success then none
          else some "Failed to process image. Please try again." }
    ({ st with batchItems := items3, currentProcessingIndex := i + 1 },
     BatchEvent.setStatus i BatchStatus.processing :: progressEvents
       ++ [BatchEvent.setOutcome i success])

/-- The driver implied by the component body: while `isProcessing` holds and
the index is below the queue length, arm a 100 ms timer and run
`processNextItem`; otherwise do nothing.  `fuel` bounds the number of
timer rounds, `ds` supplies one `Draws` record per round. -/
def runBatch (now : Nat) : Nat → BatchState → List Draws → BatchState × List BatchEvent
  | 0, st, _ => (st, [])
  | _ + 1, st, [] => (st, [])
  | fuel + 1, st, d :: rest =>
    if st.isProcessing ∧ st.currentProcessingIndex < st.batchItems.length then
      let out1 := processNextItem st d now
      let out2 := runBatch now fuel out1.1 rest
      (out2.1, BatchEvent.wait 100 :: out1.2 ++ out2.2)
    else (st, [])

/-- A selected file, as `addImagesToBatch` reads it: its `name` and its
MIME `type`. -/
structure JsFile where
  name : String
  mimeType : String
deriving DecidableEq

/-- The `BatchItem` built for one accepted file.  The generated id
(`Date.now()` and `Math.random()`) and the object URL come from the
environment and are passed in. -/
def newBatchItem (id url : String) (file : JsFile) : BatchItem :=
  { id := id, fileName := file.name, imageUrl := url,
    status := BatchStatus.pending, progress := 0, result := none, error := none }

/-- The `addImagesToBatch` callback: appends a pending item for each
selected file whose MIME type starts with `"image/"` and toasts the total
count of selected files.  `mkId` and `objectUrl` supply the
environment-generated id and object URL for the file at each index. -/
def addImagesToBatch (mkId : Nat → String) (objectUrl : Nat → String)
    (prev : List BatchItem) (files : Option (List JsFile)) :
    List BatchItem × List ToastMsg :=
  match files with
  | none => (prev, [])
  | some fs =>
    let queue := fs.enum.foldl
      (fun acc p =>
        if p.2.mimeType.startsWith "image/" then
          acc ++ [newBatchItem (mkId p.1) (objectUrl p.1) p.2]
        else acc)
      prev
    let n := fs.length
    (queue, [{ title := "Images Added",
               description := toString n ++ " images added to batch queue",
               destructive := false }])

/-! ### GeolocationFeatures (unnamed source part)

`getCurrentLocation` wraps `navigator.geolocation.getCurrentPosition`.
The browser call's outcome is passed in as a `GeoCall`: unsupported
browser, a position, or a `GeolocationPositionError` code.  The mocked
`reverseGeocode` is synchronous apart from its 1 s delay, which the model
drops (no claim mentions it). -/

/-- The `LocationData` interface (`timestamp: new Date()` as milliseconds,
optional fields as `Option`). -/
structure LocationData where
  latitude : ℚ
  longitude : ℚ
  accuracy : ℚ
  timestamp : Nat
  address : Option String
  district : Option String
  state : Option String
  country : Option String
deriving DecidableEq

/-- What the mock `reverseGeocode` returns. -/
structure MockAddress where
  address : String
  district : String
  state : String
  country : String
deriving DecidableEq

/-- Decimal digits of `n` left-padded with zeros to 4 places (for the
fractional part of `toFixed(4)`). -/
def padLeft4 (n : Nat) : String :=
  let s := toString n
  String.mk (List.replicate (4 - s.length) '0') ++ s

/-- Model of JavaScript `x.toFixed(4)` for a non-negative value: round to
four decimal places, half away from zero. -/
def fmt4Abs (q : ℚ) : String :=
  let n := (⌊q * 10000 + 1/2⌋).toNat
  toString (n / 10000) ++ "." ++ padLeft4 (n % 10000)

/-- Model of JavaScript `x.toFixed(4)`. -/
def fmt4 (q : ℚ) : String :=
  if q < 0 then "-" ++ fmt4Abs (-q) else fmt4Abs q

/-- Model of JavaScript `Math.round`. -/
def jsRound (q : ℚ) : ℤ :=
  ⌊q + 1/2⌋

/-- The mock `reverseGeocode` helper: a fabricated address whose state is
picked from the latitude. -/
def reverseGeocode (lat lng : ℚ) : MockAddress :=
  { address := "Latitude: " ++ fmt4 lat ++ ", Longitude: " ++ fmt4 lng,
    district := "Sample District",
    state := if lat > 26 then "Punjab" else if lat > 23 then "Gujarat" else "Maharashtra",
    country := "India" }

/-- React state of the GeolocationFeatures component (the parts
`getCurrentLocation` touches). -/
structure GeoState where
  location : Option LocationData
  isLoading : Bool
  error : Option String
  selectedState : String
deriving DecidableEq

/-- Outcome of the browser geolocation call, passed into the model. -/
inductive GeoCall
  | unsupported
  | position (lat lng accuracy : ℚ)
  | failure (code : Nat)
deriving DecidableEq

/-- The error message `getCurrentLocation` derives from a
`GeolocationPositionError` code. -/
def geoErrorMessage (code : Nat) : String :=
  if code = 1 then "Location access denied. Please enable location permissions."
  else if code = 2 then "Location unavailable. Please check your GPS settings."
  else if code = 3 then "Location request timed out. Please try again."
  else "Failed to get location"

/-- The `getCurrentLocation` callback: on an unsupported browser it only
records an error; otherwise it clears the error, and either stores the
position merged with the mock reverse-geocoded address (success toast), or
keeps the stored location and records the code-specific message
(destructive error toast); `isLoading` is reset in both of those paths.
Returns the new state and the toasts shown. -/
def getCurrentLocation (st : GeoState) (now : Nat) :
    GeoCall → GeoState × List ToastMsg
  | GeoCall.unsupported =>
    ({ st with error := some "Geolocation is not supported by this browser" }, [])
  | GeoCall.position lat lng accuracy =>
    let mockAddress := reverseGeocode lat lng
    let updatedLocation : LocationData :=
      { latitude := lat, longitude := lng, accuracy := accuracy, timestamp := now,
        address := some mockAddress.address, district := some mockAddress.district,
        state := some mockAddress.state, country := some mockAddress.country }
    ({ st with isLoading := false, error := none,
               location := some updatedLocation,
               selectedState := mockAddress.state },
     [{ title := "Location Updated",
        description := "Location captured with " ++ toString (jsRound accuracy)
          ++ "m accuracy",
        destructive := false }])
  | GeoCall.failure code =>
    let errorMessage := geoErrorMessage code
    ({ st with isLoading := false, error := some errorMessage },
     [{ title := "Location Error", description := errorMessage, destructive := true }])

/-! ### Concrete instances used to exercise the model -/

/-- A queue entry as `addImagesToBatch` would create it for one image. -/
def sampleBatchItem : BatchItem :=
  { id := "batch-1", fileName := "cow.jpg", imageUrl := "blob:cow",
    status := BatchStatus.pending, progress := 0, result := none, error := none }

/-- The component state right after `startBatchProcessing` on a one-image
queue: processing on, index 0. -/
def sampleBatchState : BatchState :=
  { batchItems := [sampleBatchItem], isProcessing := true, currentProcessingIndex := 0 }

/-- A previously stored location. -/
def sampleLocation : LocationData :=
  { latitude := 23, longitude := 72, accuracy := 10, timestamp := 5,
    address := none, district := none, state := none, country := none }

/-- A `GeoState` with a stored location, mid-`getCurrentLocation`. -/
def sampleGeoState : GeoState :=
  { location := some sampleLocation, isLoading := true, error := none,
    selectedState := "" }

/-! ## Helper lemmas -/

/-- Reading an index of an `updateItem` result. -/
lemma updateItem_getElem? (l : List BatchItem) (i j : Nat) (f : BatchItem → BatchItem) :
    (updateItem l i f)[j]? = l[j]?.map fun it => if j = i then f it else it := by
  unfold updateItem
  rw [List.mapIdx_eq_enum_map, List.getElem?_map, List.getElem?_enum]
  rcases l[j]? with _ | x <;> simp [Function.uncurry]

/-- Reading the updated index itself. -/
lemma updateItem_getElem?_self (l : List BatchItem) (i : Nat) (f : BatchItem → BatchItem)
    (h : i < l.length) :
    (updateItem l i f)[i]? = some (f (l.get ⟨i, h⟩)) := by
  rw [updateItem_getElem?, List.getElem?_eq_getElem h]
  simp

/-- An `updateItem` keeps the queue length. -/
lemma updateItem_length (l : List BatchItem) (i : Nat) (f : BatchItem → BatchItem) :
    (updateItem l i f).length = l.length := by
  unfold updateItem
  rw [List.mapIdx_eq_enum_map, List.length_map, List.enum_length]

/-- Folding `updateItem` updates keeps the queue length. -/
lemma foldl_updateItem_length (i : Nat) (g : Nat → BatchItem → BatchItem) :
    ∀ (ks : List Nat) (l : List BatchItem),
      (ks.foldl (fun acc k => updateItem acc i (g k)) l).length = l.length
  | [], _ => rfl
  | k :: ks, l => by
    rw [List.foldl_cons, foldl_updateItem_length i g ks, updateItem_length]

/-- The random index drawn from a unit-interval draw stays inside
`mockBreedResults`. -/
lemma pickIndex_lt_length (p : ℚ) (h0 : 0 ≤ p) (h1 : p < 1) :
    pickIndex p < mockBreedResults.length := by
  have hlen : mockBreedResults.length = 5 := rfl
  unfold pickIndex
  rw [hlen]
  have hfl : ⌊p * ((5 : Nat) : ℚ)⌋ < ((5 : Nat) : ℤ) := by
    rw [Int.floor_lt]
    push_cast
    nlinarith
  have h0' : (0 : ℤ) ≤ ⌊p * ((5 : Nat) : ℚ)⌋ := Int.floor_nonneg.mpr (by positivity)
  rw [Int.toNat_lt h0']
  exact_mod_cast hfl

/-- An in-range `getD` read of `mockBreedResults` is one of its entries. -/
lemma mockBreedResults_getD_mem (n : Nat) (h : n < mockBreedResults.length) :
    mockBreedResults.getD n { breed := "", confidence := 0 } ∈ mockBreedResults := by
  rw [List.getD_eq_getElem?_getD, List.getElem?_eq_getElem h]
  exact List.getElem_mem h

/-- Conditional-append folds are filter-then-map. -/
lemma foldl_append_if {α β : Type} (q : α → Bool) (g : α → β) :
    ∀ (l : List α) (acc : List β),
      l.foldl (fun acc x => if q x then acc ++ [g x] else acc) acc
        = acc ++ (l.filter q).map g
  | [], acc => by simp
  | a :: l, acc => by
    by_cases h : q a
    · rw [List.foldl_cons, if_pos h, foldl_append_if q g l, List.filter_cons, if_pos h]
      simp
    · rw [List.foldl_cons, if_neg h, foldl_append_if q g l, List.filter_cons, if_neg h]

/-- Filtering an enumeration by a predicate on the entries alone keeps as
many elements as filtering the plain list. -/
lemma filter_enumFrom_length {α : Type} (q : α → Bool) :
    ∀ (n : Nat) (fs : List α),
      ((List.enumFrom n fs).filter fun p => q p.2).length = (fs.filter q).length
  | _, [] => rfl
  | n, f :: fs => by
    by_cases h : q f <;>
      simp [List.enumFrom, List.filter_cons, h, filter_enumFrom_length q (n + 1) fs]

/-! ## Theorems for the claims -/

/-- C1: for every input image, the single-image analysis runs the fixed
three-step timed sequence (2000 ms, 3000 ms, 2000 ms, then a final 500 ms
delay) and invokes `onComplete` exactly once, with the trace not depending
on the image; and the predictions the results screen shows are always the
hardcoded `mockPredictions` list (Gir 87 %, Sahiwal 72 %, Red Sindhi 64 %). -/
theorem loadingAnalysis_fixed_sequence (img other : String) :
    runAnalysisTrace img = runAnalysisTrace other
    ∧ traceWaits (runAnalysisTrace img) = [2000, 3000, 2000, 500]
    ∧ completeCount (runAnalysisTrace img) = 1
    ∧ mockPredictions.map (fun p => (p.name, p.confidence))
        = [("Gir", 87), ("Sahiwal", 72), ("Red Sindhi", 64)]
    ∧ (∀ s ps, resultsPredictions s = some ps → ps = mockPredictions) := by
  refine ⟨rfl, rfl, rfl, rfl, ?_⟩
  intro s ps h
  unfold resultsPredictions at h
  by_cases hs : s.currentState = AppState.results ∧ s.capturedImage.isSome
  · rw [if_pos hs] at h
    exact (Option.some.inj h).symm
  · rw [if_neg hs] at h
    exact absurd h (by simp)

/-- C2: the screen-state controller holds exactly one mode at every moment,
drawn from the eleven named modes; every callback transition lands in that
set, which is exactly the eleven distinct modes. -/
theorem appState_modes_closed (s : BreedAIState) (e : UiEvent) :
    (step s e).currentState ∈ allModes
    ∧ (∀ m : AppState, m ∈ allModes)
    ∧ allModes.Nodup
    ∧ allModes.length = 11 := by
  refine ⟨?_, ?_, by decide, rfl⟩
  · cases h : (step s e).currentState <;> simp [allModes]
  · intro m; cases m <;> simp [allModes]

/-- C7: the breed-database filter keeps a breed exactly when the search
matches its lowercased name, its Hindi name, or its lowercased region, and
the type filter is `all` or equals the breed's type; the result is a
sublist of the database (order preserved), and the empty search with
filter `all` returns all six breeds. -/
theorem filteredBreeds_characterised (term : String) (ty : TypeFilter) :
    (∀ b : Breed, b ∈ filteredBreeds term ty ↔
        b ∈ breedDatabase
        ∧ (strIncludes (jsToLower b.name) (jsToLower term) = true
            ∨ strIncludes b.hindiName term = true
            ∨ strIncludes (jsToLower b.region) (jsToLower term) = true)
        ∧ (ty = TypeFilter.all ∨ filterEqType ty b.typ = true))
    ∧ (filteredBreeds term ty).Sublist breedDatabase
    ∧ filteredBreeds "" TypeFilter.all = breedDatabase
    ∧ breedDatabase.length = 6 := by
  refine ⟨?_, List.filter_sublist _, rfl, rfl⟩
  intro b
  simp only [filteredBreeds, List.mem_filter, breedMatchesSearch, Bool.and_eq_true,
    Bool.or_eq_true, beq_iff_eq]
  tauto

/-- C3: `processCommand` dispatches a command if and only if the
lowercased, trimmed transcript contains the lowercased English keyword or
the Hindi keyword of some entry of the seven-command list and the
confidence exceeds 0.7; the dispatched action is that of the first
matching entry in list order (`List.find?`), and otherwise nothing is
dispatched. -/
theorem processCommand_dispatch (t : String) (c : ℚ) :
    ((processCommand t c).isSome ↔
        c > 7/10
        ∧ ∃ cmd ∈ voiceCommands,
            (strIncludes (jsTrim (jsToLower t)) (jsToLower cmd.english) = true
              ∨ strIncludes (jsTrim (jsToLower t)) cmd.hindi = true))
    ∧ processCommand t c
        = (if c > 7/10
           then (voiceCommands.find? (cmdMatches (jsTrim (jsToLower t)))).map Command.action
           else none)
    ∧ voiceCommands.length = 7 := by
  have key : processCommand t c
      = (if c > 7/10
         then (voiceCommands.find? (cmdMatches (jsTrim (jsToLower t)))).map Command.action
         else none) := by
    unfold processCommand
    rcases h : voiceCommands.find? (cmdMatches (jsTrim (jsToLower t))) with _ | cmd <;>
      by_cases hc : c > 7/10 <;> simp [h, hc]
  refine ⟨?_, key, rfl⟩
  rw [key]
  by_cases hc : c > 7/10
  · rw [if_pos hc]
    rcases h : voiceCommands.find? (cmdMatches (jsTrim (jsToLower t))) with _ | cmd
    · rw [List.find?_eq_none] at h
      simp only [Option.map_none', Option.isSome_none, Bool.false_eq_true, false_iff]
      rintro ⟨-, cmd, hmem, hmatch⟩
      exact absurd (by simpa [cmdMatches, Bool.or_eq_true] using hmatch) (h cmd hmem)
    · have : (voiceCommands.find? (cmdMatches (jsTrim (jsToLower t)))).isSome := by
        rw [h]; rfl
      rw [List.find?_isSome] at this
      obtain ⟨x, hx, hpx⟩ := this
      simp only [Option.map_some', Option.isSome_some, true_iff]
      exact ⟨hc, x, hx, by simpa [cmdMatches, Bool.or_eq_true] using hpx⟩
  · rw [if_neg hc]
    simp [hc]

/-- C4: on a one-image queue with processing started, the driver loop
processes the item in order — mark processing, then progress 0, 10, …,
100 each after a 150 ms delay, then settle the item — but once the index
reaches the queue length it arms no further timer, so `processNextItem`'s
completion branch never runs: `isProcessing` stays `true` and no
"Batch Processing Complete" toast is ever emitted, contrary to the claim's
final step. -/
theorem batch_completion_branch_unreachable :
    ((runBatch 0 2 sampleBatchState
        [{ pick := 0, succ := 1 }, { pick := 0, succ := 1 }]).1.isProcessing = true)
    ∧ ((runBatch 0 2 sampleBatchState
        [{ pick := 0, succ := 1 }, { pick := 0, succ := 1 }]).1.currentProcessingIndex = 1)
    ∧ ((runBatch 0 2 sampleBatchState
        [{ pick := 0, succ := 1 }, { pick := 0, succ := 1 }]).1.batchItems.map
          BatchItem.status = [BatchStatus.completed])
    ∧ (BatchEvent.toast "Batch Processing Complete"
        ∉ (runBatch 0 2 sampleBatchState
            [{ pick := 0, succ := 1 }, { pick := 0, succ := 1 }]).2)
    ∧ ((runBatch 0 2 sampleBatchState
        [{ pick := 0, succ := 1 }, { pick := 0, succ := 1 }]).2
        = [BatchEvent.wait 100, BatchEvent.setStatus 0 BatchStatus.processing,
           BatchEvent.wait 150, BatchEvent.setProgress 0 0,
           BatchEvent.wait 150, BatchEvent.setProgress 0 10,
           BatchEvent.wait 150, BatchEvent.setProgress 0 20,
           BatchEvent.wait 150, BatchEvent.setProgress 0 30,
           BatchEvent.wait 150, BatchEvent.setProgress 0 40,
           BatchEvent.wait 150, BatchEvent.setProgress 0 50,
           BatchEvent.wait 150, BatchEvent.setProgress 0 60,
           BatchEvent.wait 150, BatchEvent.setProgress 0 70,
           BatchEvent.wait 150, BatchEvent.setProgress 0 80,
           BatchEvent.wait 150, BatchEvent.setProgress 0 90,
           BatchEvent.wait 150, BatchEvent.setProgress 0 100,
           BatchEvent.setOutcome 0 true]) := by
  have h1 : (1 : ℚ) > 1/10 := by norm_num
  have h1' : (10 : ℚ)⁻¹ < 1 := by norm_num
  have hpick : pickIndex 0 = 0 := by simp [pickIndex]
  simp [runBatch, processNextItem, sampleBatchState, sampleBatchItem, updateItem,
    hpick, h1, h1', List.range_succ, mockBreedResults, List.mapIdx_eq_enum_map]

/-- C5: an item that finishes processing ends either `completed` with a
result drawn from the five fixed `mockBreedResults` pairs and no error, or
`error` with the fixed message and no result; the former exactly when the
success draw exceeds 0.1. -/
theorem processNextItem_outcome (st : BatchState) (d : Draws) (now : Nat)
    (hidx : st.currentProcessingIndex < st.batchItems.length)
    (hpick0 : 0 ≤ d.pick) (hpick1 : d.pick < 1) :
    ∃ it, (processNextItem st d now).1.batchItems[st.currentProcessingIndex]? = some it
      ∧ ((d.succ > 1/10
            ∧ it.status = BatchStatus.completed
            ∧ (∃ r, it.result = some r
                ∧ ({ breed := r.breed, confidence := r.confidence } : BreedConf)
                    ∈ mockBreedResults)
            ∧ it.error = none)
        ∨ (¬ d.succ > 1/10
            ∧ it.status = BatchStatus.error
            ∧ it.error = some "Failed to process image. Please try again."
            ∧ it.result = none)) := by
  have hne : ¬ st.currentProcessingIndex ≥ st.batchItems.length := by omega
  unfold processNextItem
  rw [if_neg hne]
  dsimp only
  set i := st.currentProcessingIndex with hidef
  set items2 := (List.range 11).foldl
    (fun acc k => updateItem acc i fun it => { it with progress := 10 * k })
    (updateItem st.batchItems i fun it => { it with status := BatchStatus.processing })
    with h2
  have hlen2 : items2.length = st.batchItems.length := by
    rw [h2, foldl_updateItem_length, updateItem_length]
  have hi2 : i < items2.length := by rw [hlen2]; exact hidx
  rw [updateItem_getElem?_self _ _ _ hi2]
  refine ⟨_, rfl, ?_⟩
  by_cases hs : d.succ > 1/10
  · have hs10 : (10 : ℚ)⁻¹ < d.succ := by rw [← one_div]; exact hs
    left
    refine ⟨hs, by simp [hs, hs10], ?_, by simp [hs, hs10]⟩
    refine ⟨{ breed := (mockBreedResults.getD (pickIndex d.pick)
                { breed := "", confidence := 0 }).breed,
              confidence := (mockBreedResults.getD (pickIndex d.pick)
                { breed := "", confidence := 0 }).confidence,
              timestamp := now }, by simp [hs, hs10], ?_⟩
    exact mockBreedResults_getD_mem _ (pickIndex_lt_length d.pick hpick0 hpick1)
  · have hs10 : ¬ (10 : ℚ)⁻¹ < d.succ := by rw [← one_div]; exact hs
    right
    exact ⟨hs, by simp [hs, hs10], by simp [hs, hs10], by simp [hs, hs10]⟩

/-- Witness for C5 at a concrete one-item queue with draws `pick = 0`,
`succ = 1`. -/
theorem processNextItem_outcome_witness :
    ∃ it, (processNextItem sampleBatchState { pick := 0, succ := 1 } 0).1.batchItems[
        sampleBatchState.currentProcessingIndex]? = some it
      ∧ (((1 : ℚ) > 1/10
            ∧ it.status = BatchStatus.completed
            ∧ (∃ r, it.result = some r
                ∧ ({ breed := r.breed, confidence := r.confidence } : BreedConf)
                    ∈ mockBreedResults)
            ∧ it.error = none)
        ∨ (¬ (1 : ℚ) > 1/10
            ∧ it.status = BatchStatus.error
            ∧ it.error = some "Failed to process image. Please try again."
            ∧ it.result = none)) :=
  processNextItem_outcome sampleBatchState { pick := 0, succ := 1 } 0
    (by simp [sampleBatchState]) (by norm_num) (by norm_num)

/-- C8: `getConfidenceLevel` is total on ℚ and sorts every confidence into
exactly one of three levels: `high` iff 80 ≤ c, `medium` iff 60 ≤ c < 80,
`low` iff c < 60, with the matching user-facing labels. -/
theorem getConfidenceLevel_partition (c : ℚ) :
    ((getConfidenceLevel c).level = ConfLevel.high ↔ 80 ≤ c)
    ∧ ((getConfidenceLevel c).level = ConfLevel.medium ↔ 60 ≤ c ∧ c < 80)
    ∧ ((getConfidenceLevel c).level = ConfLevel.low ↔ c < 60)
    ∧ ((getConfidenceLevel c).label = "High Confidence" ↔ 80 ≤ c)
    ∧ ((getConfidenceLevel c).label = "Medium Confidence" ↔ 60 ≤ c ∧ c < 80)
    ∧ ((getConfidenceLevel c).label = "Low Confidence" ↔ c < 60) := by
  unfold getConfidenceLevel
  split_ifs with h1 h2 <;>
    refine ⟨?_, ?_, ?_, ?_, ?_, ?_⟩ <;> simp_all <;> linarith

/-- C9: `addImagesToBatch` appends to the queue exactly the selected files
whose MIME type starts with `"image/"`, in selection order, each pending
with progress 0, leaving the existing items unchanged; the toast reports
the total number of selected files, which exceeds the number appended
whenever a non-image file was dropped. -/
theorem addImagesToBatch_appends_images (mkId objectUrl : Nat → String)
    (prev : List BatchItem) (fs : List JsFile) :
    ((addImagesToBatch mkId objectUrl prev (some fs)).1
        = prev ++ ((fs.enum.filter fun p => p.2.mimeType.startsWith "image/").map
            fun p => newBatchItem (mkId p.1) (objectUrl p.1) p.2))
    ∧ (∀ it ∈ ((addImagesToBatch mkId objectUrl prev (some fs)).1).drop prev.length,
        it.status = BatchStatus.pending ∧ it.progress = 0)
    ∧ ((addImagesToBatch mkId objectUrl prev (some fs)).2
        = [{ title := "Images Added",
             description := toString fs.length ++ " images added to batch queue",
             destructive := false }])
    ∧ ((addImagesToBatch mkId objectUrl prev (some fs)).1.length
        = prev.length + (fs.filter fun f => f.mimeType.startsWith "image/").length)
    ∧ ((∃ f ∈ fs, ¬ f.mimeType.startsWith "image/" = true) →
        (fs.filter fun f => f.mimeType.startsWith "image/").length < fs.length) := by
  have hq : (addImagesToBatch mkId objectUrl prev (some fs)).1
      = prev ++ ((fs.enum.filter fun p => p.2.mimeType.startsWith "image/").map
          fun p => newBatchItem (mkId p.1) (objectUrl p.1) p.2) := by
    unfold addImagesToBatch
    exact foldl_append_if _ _ fs.enum prev
  refine ⟨hq, ?_, rfl, ?_, ?_⟩
  · rw [hq, List.drop_left]
    intro it hit
    rw [List.mem_map] at hit
    obtain ⟨p, -, rfl⟩ := hit
    exact ⟨rfl, rfl⟩
  · rw [hq, List.length_append, List.length_map]
    congr 1
    exact filter_enumFrom_length (fun f => f.mimeType.startsWith "image/") 0 fs
  · rintro ⟨f, hf, hnf⟩
    exact List.length_filter_lt_length_iff_exists.mpr ⟨f, hf, hnf⟩

/-- C6: `getCurrentLocation` reports both directions with a toast: success
stores the position merged with the mock reverse-geocoded address and
shows "Location Updated"; failure keeps the stored location, records the
code-specific error message (code 1 permission, code 2 GPS, code 3
timeout, anything else generic) and shows a destructive "Location Error"
toast; in either direction `isLoading` ends false. -/
theorem getCurrentLocation_reports_both_ways (st : GeoState) (now : Nat) :
    (∀ lat lng accuracy,
        (getCurrentLocation st now (GeoCall.position lat lng accuracy)).1.isLoading = false
        ∧ (getCurrentLocation st now (GeoCall.position lat lng accuracy)).1.location
            = some { latitude := lat, longitude := lng, accuracy := accuracy,
                     timestamp := now,
                     address := some (reverseGeocode lat lng).address,
                     district := some (reverseGeocode lat lng).district,
                     state := some (reverseGeocode lat lng).state,
                     country := some (reverseGeocode lat lng).country }
        ∧ (getCurrentLocation st now (GeoCall.position lat lng accuracy)).2
            = [{ title := "Location Updated",
                 description := "Location captured with "
                   ++ toString (jsRound accuracy) ++ "m accuracy",
                 destructive := false }])
    ∧ (∀ code,
        (getCurrentLocation st now (GeoCall.failure code)).1.isLoading = false
        ∧ (getCurrentLocation st now (GeoCall.failure code)).1.location = st.location
        ∧ (getCurrentLocation st now (GeoCall.failure code)).1.error
            = some (geoErrorMessage code)
        ∧ (code = 1 → geoErrorMessage code
            = "Location access denied. Please enable location permissions.")
        ∧ (code = 2 → geoErrorMessage code
            = "Location unavailable. Please check your GPS settings.")
        ∧ (code = 3 → geoErrorMessage code
            = "Location request timed out. Please try again.")
        ∧ (code ≠ 1 → code ≠ 2 → code ≠ 3 → geoErrorMessage code
            = "Failed to get location")
        ∧ (getCurrentLocation st now (GeoCall.failure code)).2
            = [{ title := "Location Error", description := geoErrorMessage code,
                 destructive := true }]) := by
  constructor
  · intro lat lng accuracy
    exact ⟨rfl, rfl, rfl⟩
  · intro code
    refine ⟨rfl, rfl, rfl, ?_, ?_, ?_, ?_, rfl⟩
    · intro h; simp [geoErrorMessage, h]
    · intro h; simp [geoErrorMessage, h]
    · intro h; simp [geoErrorMessage, h]
    · intro h1 h2 h3; simp [geoErrorMessage, h1, h2, h3]

/-- C10: `handleComplete` never fires `onComplete` with fewer than 2
captured images: it is a no-op below 2 (where the completion button is also
disabled), and when it fires it passes exactly the current list. -/
theorem handleComplete_min_two (cs : List CapturedImage) :
    ((handleComplete cs).isSome ↔ 2 ≤ cs.length)
    ∧ (∀ l, handleComplete cs = some l → l = cs)
    ∧ (cs.length < 2 → handleComplete cs = none)
    ∧ (completeDisabled cs = true ↔ cs.length < 2) := by
  unfold handleComplete completeDisabled
  split_ifs with h <;> refine ⟨?_, ?_, ?_, ?_⟩ <;> simp_all

end BreedAI
